import Mathlib

/-!
Verification development for the global-sensitivity-analysis demo
(`examples/global_sensitivity_demo.py`).

The development shallowly embeds the uncertainty-assignment operation
`add_exchange_uncertainty` (lines 57-71 of the demo) and the reporting
function `print_top_parameters` (lines 78-83).  Floating point amounts are
modelled as exact rationals, the Brightway2 database as the flattened list of
its exchanges in iteration order, and the hidden state of Python's global
`random` module as an explicit stream of draws.  The parameter registry of
the `lca_algebraic` library is repository code that is not part of the demo
file; it is modelled from the specification (see `newFloatParam`).
-/

namespace GsaDemo

/-- Distribution families of `lca_algebraic` parameters; the demo only uses
`TRIANGLE` (`agb.params.DistributionType.TRIANGLE`, line 69). -/
inductive DistributionType where
  | TRIANGLE
  | LINEAR
  | NORMAL
deriving DecidableEq

/-- A parameter definition held by the parameter registry.  The fields mirror
the keyword arguments of `agb.newFloatParam`: `name`, `default`, `min`,
`max`, `distrib`. -/
structure FloatParam where
  name : String
  default : ℚ
  min : ℚ
  max : ℚ
  distrib : DistributionType
deriving DecidableEq

/-- The parameter registry: the insertion-ordered collection of parameters
registered so far. -/
abbrev Registry := List FloatParam

/-- Errors of the embedded pipeline.  `DuplicateParameterError` and
`ConfigurationError` come from the specification's error taxonomy for the
registry; `ValueError` models the error `random.sample` raises when asked for
more elements than the population holds. -/
inductive PyError where
  | DuplicateParameterError (name : String)
  | ConfigurationError (name : String)
  | ValueError
deriving DecidableEq

/-- Decidable equality for fallible results, so that concrete runs can be
checked by evaluation. -/
instance exceptDecEq {ε α : Type _} [DecidableEq ε] [DecidableEq α] :
    DecidableEq (Except ε α) := fun x y =>
  match x, y with
  | Except.error a, Except.error b =>
      if h : a = b then isTrue (by rw [h])
      else isFalse (by intro hc; cases hc; exact h rfl)
  | Except.error _, Except.ok _ => isFalse (by intro hc; cases hc)
  | Except.ok _, Except.error _ => isFalse (by intro hc; cases hc)
  | Except.ok a, Except.ok b =>
      if h : a = b then isTrue (by rw [h])
      else isFalse (by intro hc; cases hc; exact h rfl)

/-- Modelled from the spec: `agb.newFloatParam`, the parameter-registry
constructor of the `lca_algebraic` library, which is repository code not
present under `src/` (the demo only calls it).  Per the spec, inputs
violating `low ≤ default ≤ high` fail with `ConfigurationError`; reusing a
name already present in the registry fails with `DuplicateParameterError` and
never overwrites the existing entry; otherwise the new parameter is appended
to the registry and returned. -/
def newFloatParam (reg : Registry) (name : String) (default mn mx : ℚ)
    (distrib : DistributionType) : Except PyError (FloatParam × Registry) :=
  if mn ≤ default ∧ default ≤ mx then
    if reg.any (fun p => p.name == name) then
      Except.error (PyError.DuplicateParameterError name)
    else
      Except.ok (⟨name, default, mn, mx, distrib⟩,
        reg ++ [⟨name, default, mn, mx, distrib⟩])
  else
    Except.error (PyError.ConfigurationError name)

/-- The amount slot of an exchange: either a raw numeric amount or, after
parameterization, a symbolic reference to a named parameter (the demo stores
the parameter object itself in the amount slot, line 71). -/
inductive Amount where
  | num (v : ℚ)
  | paramRef (name : String)
deriving DecidableEq

/-- One exchange of the database: `inputCode` is the second component of the
exchange's input key (the activity code), `amount` its amount slot and
`exType` its type string.  The database is modelled as the list of its
exchanges in iteration order; the demo flattens the database the same way
with its comprehension over activities and their exchanges (line 59). -/
structure Exchange where
  inputCode : String
  amount : Amount
  exType : String
deriving DecidableEq

/-- Reading the amount slot as a number (line 63).  In the demo every
selected exchange is read before being rewritten and no exchange is selected
twice, so the symbolic case never occurs there; it is mapped to `0` to keep
the function total. -/
def getNum : Amount → ℚ
  | Amount.num v => v
  | Amount.paramRef _ => 0

/-- The parameter name derived from the exchange's input identity: the
literal `p_` followed by the input's activity code (line 65). -/
def paramName (e : Exchange) : String := "p_" ++ e.inputCode

/-- The hidden state of Python's global `random` module, abstracted as the
stream of pseudo-random draws it will produce.  The demo never seeds or
passes it: `random.sample` silently consumes this ambient state. -/
def RandGen : Type := Nat → Nat

/-- Without-replacement sampling loop behind `random.sample`: `k` times, pick
the position indicated by the next draw of the generator (reduced modulo the
remaining population size) and remove it from the population.  Positions,
never values, are drawn without replacement, as `random.sample` does on
sequences. -/
def sampleAux {α : Type _} (g : RandGen) : Nat → List α → Nat → List α
  | _, _, 0 => []
  | step, pop, Nat.succ k =>
    match pop[g step % pop.length]? with
    | none => []
    | some x => x :: sampleAux g (step + 1) (pop.eraseIdx (g step % pop.length)) k

/-- Model of `random.sample(pop, k)` from Python's standard library: a
uniform sample of `k` of the list's positions without replacement, driven by
the hidden global generator state `g`; `none` models the `ValueError` raised
when `k` exceeds the population size. -/
def randomSample {α : Type _} (g : RandGen) (pop : List α) (k : Nat) :
    Option (List α) :=
  if k ≤ pop.length then some (sampleAux g 0 pop k) else none

/-- Python `int(q)` on a rational: truncation toward zero. -/
def pyInt (q : ℚ) : ℤ := if q < 0 then -((-q).floor) else q.floor

/-- The eligible exchanges: every exchange whose type is not `production`,
paired with its position in the database, in iteration order (the list
comprehension at line 59). -/
def eligibleExchs (db : List Exchange) : List (Nat × Exchange) :=
  db.enum.filter (fun pr => pr.2.exType != "production")

/-- Number of exchanges to parameterize, `max(1, int(len(exchs) * percent))`
(line 60).  Python compares the possibly negative `int(...)` against `1`;
taking `Int.toNat` before `max 1` agrees with that in every case since any
nonpositive value loses against `1` either way. -/
def nSelect (db : List Exchange) (percent : ℚ) : Nat :=
  max 1 (pyInt (((eligibleExchs db).length : ℚ) * percent)).toNat

/-- The sampling call `random.sample(exchs, n_uncertain)` (line 61): the
selected exchanges in selection order, or `none` for the `ValueError` raised
when the eligible population is smaller than the requested sample. -/
def selectedSample (db : List Exchange) (percent : ℚ) (g : RandGen) :
    Option (List (Nat × Exchange)) :=
  randomSample g (eligibleExchs db) (nSelect db percent)

/-- The amount rewrite of line 71: only the amount slot changes, to a
symbolic reference to the named parameter. -/
def rewriteExc (e : Exchange) (pname : String) : Exchange :=
  ⟨e.inputCode, Amount.paramRef pname, e.exType⟩

/-- Result of a run: the database and registry after all mutations that
happened, plus the error that stopped the loop, if any.  Mutations performed
before an error are kept: the demo has no rollback. -/
structure UResult where
  db : List Exchange
  registry : Registry
  err : Option PyError
deriving DecidableEq

/-- The loop of lines 62-71: for each selected exchange, read its amount `v`,
create a parameter named from its input identity with default `v`, min
`0.5 * v`, max `1.5 * v` and the TRIANGLE distribution, then overwrite the
exchange's amount with a reference to the created parameter.  A failing
parameter creation stops the loop at that point. -/
def processSelected : List (Nat × Exchange) → List Exchange → Registry → UResult
  | [], db, reg => ⟨db, reg, none⟩
  | (i, e) :: rest, db, reg =>
    match newFloatParam reg (paramName e) (getNum e.amount)
        ((1 / 2) * getNum e.amount) ((3 / 2) * getNum e.amount)
        DistributionType.TRIANGLE with
    | Except.error er => ⟨db, reg, some er⟩
    | Except.ok pr => processSelected rest (db.set i (rewriteExc e pr.1.name)) pr.2

/-- `add_exchange_uncertainty` (lines 57-71), over an explicit database
state, parameter registry and hidden global generator state. -/
def add_exchange_uncertainty (db : List Exchange) (percent : ℚ) (g : RandGen)
    (reg : Registry) : UResult :=
  match selectedSample db percent g with
  | none => ⟨db, reg, some PyError.ValueError⟩
  | some sel => processSelected sel db reg

/-- One simplified model as consumed by `print_top_parameters`: its `sobols`
mapping from parameter name to first-order index S1, modelled as the
insertion-ordered association list that a Python dict iterates as. -/
structure SimplifiedModel where
  sobols : List (String × ℚ)

/-- Stable insertion before the first entry of strictly smaller S1, the
building block of a stable sort by descending S1. -/
def insertDesc (x : String × ℚ) : List (String × ℚ) → List (String × ℚ)
  | [] => [x]
  | y :: ys => if y.2 < x.2 then x :: y :: ys else y :: insertDesc x ys

/-- The sort of line 82, `sorted` with key the negated S1: Python's sort is
stable, and a stable sort by a single key is unique, so it agrees with this
insertion sort. -/
def pySortedDescS1 (l : List (String × ℚ)) : List (String × ℚ) :=
  l.foldl (fun acc x => insertDesc x acc) []

/-- `print_top_parameters` (lines 78-83), modelled as returning the rows it
prints: for each simplified model, its sobol items sorted by descending
S1. -/
def print_top_parameters (simplified : List SimplifiedModel) :
    List (List (String × ℚ)) :=
  simplified.map (fun lambd => pySortedDescS1 lambd.sobols)

/-- Stated from the spec's words ("ranks parameters per output by descending
S1, ties broken by parameter name for determinism"): whether `x` must be
listed strictly before `y` under that ordering.  Names compare
lexicographically by character. -/
def specBefore (x y : String × ℚ) : Bool :=
  y.2 < x.2 || (x.2 == y.2 && x.1.data < y.1.data)

/-- Insertion step for the spec's ordering. -/
def specInsertSobol (x : String × ℚ) : List (String × ℚ) → List (String × ℚ)
  | [] => [x]
  | y :: ys => if specBefore x y then x :: y :: ys else y :: specInsertSobol x ys

/-- Ranking as the spec words it: by descending S1 with ties broken by
ascending parameter name.  Stated from the spec for comparison with
`pySortedDescS1`. -/
def specSortSobols (l : List (String × ℚ)) : List (String × ℚ) :=
  l.foldl (fun acc x => specInsertSobol x acc) []

/-- The parameter that the loop body of `add_exchange_uncertainty` registers
for an exchange: name derived from the input identity, default the current
amount `v`, bounds `0.5 * v` and `1.5 * v`, TRIANGLE distribution (lines
64-70). -/
def mkParamOf (e : Exchange) : FloatParam :=
  ⟨paramName e, getNum e.amount, (1 / 2) * getNum e.amount,
    (3 / 2) * getNum e.amount, DistributionType.TRIANGLE⟩

/-- A database with four eligible (non-production) exchanges. -/
def dbFour : List Exchange :=
  [⟨"a", Amount.num 1, "technosphere"⟩, ⟨"b", Amount.num 2, "technosphere"⟩,
   ⟨"c", Amount.num 3, "technosphere"⟩, ⟨"d", Amount.num 4, "technosphere"⟩]

/-- A database with ten eligible exchanges of amounts 1 to 10. -/
def dbTen : List Exchange :=
  (List.range 10).map
    (fun i => ⟨toString i, Amount.num (i + 1 : ℚ), "technosphere"⟩)

/-- The selection that the generator constantly drawing 0 produces on
`dbTen` at fraction 2/5: the first four positions. -/
def selTen : List (Nat × Exchange) :=
  [(0, ⟨"0", Amount.num 1, "technosphere"⟩),
   (1, ⟨"1", Amount.num 2, "technosphere"⟩),
   (2, ⟨"2", Amount.num 3, "technosphere"⟩),
   (3, ⟨"3", Amount.num 4, "technosphere"⟩)]

/-- A database whose single eligible exchange has amount 0. -/
def dbZero : List Exchange := [⟨"z", Amount.num 0, "technosphere"⟩]

/-- A database whose single eligible exchange has amount 4. -/
def dbSeven : List Exchange := [⟨"s", Amount.num 4, "technosphere"⟩]

/-- A database holding only a production exchange: no exchange is
eligible. -/
def dbProd : List Exchange := [⟨"p", Amount.num 5, "production"⟩]

/-- A database whose single eligible exchange has amount 8. -/
def dbEight : List Exchange := [⟨"w", Amount.num 8, "technosphere"⟩]

/-- A database with one eligible exchange of amount 2. -/
def dbTwo : List Exchange := [⟨"m", Amount.num 2, "technosphere"⟩]

/-- Two exchanges sharing the input code `a`, so that both derive the same
parameter name. -/
def exA : Exchange := ⟨"a", Amount.num 2, "technosphere"⟩

/-- Second exchange with input code `a`; see `exA`. -/
def exB : Exchange := ⟨"a", Amount.num 3, "technosphere"⟩

attribute [local semireducible] Rat.mul Rat.inv Rat.add Rat.sub

/-- Putting back the element at a position in front of the remainder is a
permutation of the original population. -/
theorem cons_eraseIdx_perm {α : Type _} :
    ∀ (l : List α) (i : Nat) (x : α), l[i]? = some x →
      List.Perm (x :: l.eraseIdx i) l
  | [], i, x, h => by simp at h
  | a :: l, 0, x, h => by
      simp only [List.getElem?_cons_zero, Option.some.injEq] at h
      subst h
      simp [List.eraseIdx]
  | a :: l, i + 1, x, h => by
      simp only [List.getElem?_cons_succ] at h
      have ih := cons_eraseIdx_perm l i x h
      simpa [List.eraseIdx] using (List.Perm.swap a x _).trans (ih.cons a)

/-- Whatever the generator state, `sampleAux` draws a sub-multiset of the
population. -/
theorem sampleAux_subperm {α : Type _} (g : RandGen) :
    ∀ (k step : Nat) (pop : List α),
      List.Subperm (sampleAux g step pop k) pop
  | 0, step, pop => by simp [sampleAux, List.nil_subperm]
  | k + 1, step, pop => by
      rw [sampleAux]
      cases h : pop[g step % pop.length]? with
      | none => simp [List.nil_subperm]
      | some x =>
          simp only []
          have ih := sampleAux_subperm g k (step + 1) (pop.eraseIdx (g step % pop.length))
          have h1 : List.Subperm (x :: sampleAux g (step + 1) (pop.eraseIdx (g step % pop.length)) k)
              (x :: pop.eraseIdx (g step % pop.length)) := (List.subperm_cons x).mpr ih
          exact h1.trans (cons_eraseIdx_perm pop _ x h).subperm

/-- `sampleAux` returns exactly `k` elements when the population is large
enough. -/
theorem sampleAux_length {α : Type _} (g : RandGen) :
    ∀ (k step : Nat) (pop : List α), k ≤ pop.length →
      (sampleAux g step pop k).length = k
  | 0, step, pop, _ => by simp [sampleAux]
  | k + 1, step, pop, hk => by
      have hpos : 0 < pop.length := Nat.lt_of_lt_of_le (Nat.succ_pos k) hk
      have hlt : g step % pop.length < pop.length := Nat.mod_lt _ hpos
      rw [sampleAux]
      rw [List.getElem?_eq_getElem hlt]
      simp only [List.length_cons]
      have hle : k ≤ (pop.eraseIdx (g step % pop.length)).length := by
        rw [List.length_eraseIdx_of_lt hlt]
        omega
      rw [sampleAux_length g k (step + 1) _ hle]

/-- `sampleAux` reads the generator only at positions `step` to
`step + k - 1`: two generator states agreeing there sample identically. -/
theorem sampleAux_congr {α : Type _} (g1 g2 : RandGen) :
    ∀ (k step : Nat) (pop : List α),
      (∀ j, step ≤ j → j < step + k → g1 j = g2 j) →
      sampleAux g1 step pop k = sampleAux g2 step pop k
  | 0, step, pop, _ => by simp [sampleAux]
  | k + 1, step, pop, h => by
      have hg : g1 step = g2 step := h step (Nat.le_refl step) (by omega)
      rw [sampleAux, sampleAux, hg]
      cases hx : pop[g2 step % pop.length]? with
      | none => simp
      | some x =>
          simp only []
          rw [sampleAux_congr g1 g2 k (step + 1) (pop.eraseIdx (g2 step % pop.length))
            (fun j h1 h2 => h j (by omega) (by omega))]

/-- A sub-multiset of a duplicate-free list is duplicate-free. -/
theorem subperm_nodup {α : Type _} {l1 l2 : List α}
    (h : List.Subperm l1 l2) (h2 : l2.Nodup) : l1.Nodup := by
  obtain ⟨l, hperm, hsub⟩ := h
  exact hperm.nodup (h2.sublist hsub)

/-- Mapping preserves the sub-multiset relation. -/
theorem subperm_map {α β : Type _} (f : α → β) {l1 l2 : List α}
    (h : List.Subperm l1 l2) : List.Subperm (l1.map f) (l2.map f) := by
  obtain ⟨l, hperm, hsub⟩ := h
  exact ⟨l.map f, hperm.map f, hsub.map f⟩

/-- A successful sampling call returns a sub-multiset of the eligible
exchanges. -/
theorem selectedSample_subperm {db : List Exchange} {percent : ℚ} {g : RandGen}
    {sel : List (Nat × Exchange)} (h : selectedSample db percent g = some sel) :
    List.Subperm sel (eligibleExchs db) := by
  unfold selectedSample randomSample at h
  by_cases hk : nSelect db percent ≤ (eligibleExchs db).length
  · rw [if_pos hk] at h
    cases h
    exact sampleAux_subperm g _ 0 _
  · rw [if_neg hk] at h
    cases h

/-- A successful sampling call returns exactly the requested number of
exchanges. -/
theorem selectedSample_length {db : List Exchange} {percent : ℚ} {g : RandGen}
    {sel : List (Nat × Exchange)} (h : selectedSample db percent g = some sel) :
    sel.length = nSelect db percent := by
  unfold selectedSample randomSample at h
  by_cases hk : nSelect db percent ≤ (eligibleExchs db).length
  · rw [if_pos hk] at h
    cases h
    exact sampleAux_length g _ 0 _ hk
  · rw [if_neg hk] at h
    cases h

/-- The eligible list is a sublist of the enumerated database. -/
theorem eligibleExchs_sublist (db : List Exchange) :
    List.Sublist (eligibleExchs db) db.enum :=
  List.filter_sublist db.enum

/-- The positions of a successfully selected sample are pairwise distinct:
`random.sample` draws without replacement. -/
theorem selectedSample_fst_nodup {db : List Exchange} {percent : ℚ}
    {g : RandGen} {sel : List (Nat × Exchange)}
    (h : selectedSample db percent g = some sel) :
    (sel.map Prod.fst).Nodup := by
  have h1 : List.Subperm sel db.enum :=
    (selectedSample_subperm h).trans (eligibleExchs_sublist db).subperm
  have h2 : List.Subperm (sel.map Prod.fst) (db.enum.map Prod.fst) :=
    subperm_map Prod.fst h1
  exact subperm_nodup h2 (List.nodup_enum_map_fst db)

/-- Every selected pair is a position inside the database together with a
non-production exchange. -/
theorem selectedSample_mem {db : List Exchange} {percent : ℚ} {g : RandGen}
    {sel : List (Nat × Exchange)} {i : Nat} {e : Exchange}
    (h : selectedSample db percent g = some sel) (hmem : (i, e) ∈ sel) :
    i < db.length ∧ e.exType ≠ "production" := by
  have h1 : (i, e) ∈ eligibleExchs db := (selectedSample_subperm h).subset hmem
  have h2 : (i, e) ∈ db.enum ∧ (e.exType != "production") = true := by
    simpa [eligibleExchs] using List.mem_filter.mp h1
  refine ⟨List.fst_lt_of_mem_enum h2.1, ?_⟩
  simpa using h2.2

/-- Inversion of a successful registry insertion: the returned parameter
carries exactly the supplied fields, the registry is extended by it at the
end, its bounds are valid and its name was fresh. -/
theorem newFloatParam_ok {reg : Registry} {nm : String} {d mn mx : ℚ}
    {dist : DistributionType} {pr : FloatParam × Registry}
    (h : newFloatParam reg nm d mn mx dist = Except.ok pr) :
    pr.1 = ⟨nm, d, mn, mx, dist⟩ ∧ pr.2 = reg ++ [pr.1] ∧
      (mn ≤ d ∧ d ≤ mx) ∧ ∀ p ∈ reg, p.name ≠ nm := by
  unfold newFloatParam at h
  by_cases hb : mn ≤ d ∧ d ≤ mx
  · rw [if_pos hb] at h
    by_cases hdup : reg.any (fun p => p.name == nm)
    · rw [if_pos hdup] at h
      cases h
    · rw [if_neg hdup] at h
      cases h
      refine ⟨rfl, rfl, hb, ?_⟩
      intro p hp hname
      exact hdup (List.any_eq_true.mpr ⟨p, hp, by simp [hname]⟩)
  · rw [if_neg hb] at h
    cases h

/-- A registry insertion with invalid bounds fails with
`ConfigurationError`. -/
theorem newFloatParam_config {reg : Registry} {nm : String} {d mn mx : ℚ}
    {dist : DistributionType} (h : ¬(mn ≤ d ∧ d ≤ mx)) :
    newFloatParam reg nm d mn mx dist =
      Except.error (PyError.ConfigurationError nm) := by
  unfold newFloatParam
  rw [if_neg h]

/-- A registry insertion reusing a present name fails with
`DuplicateParameterError` (bounds being valid). -/
theorem newFloatParam_dup {reg : Registry} {nm : String} {d mn mx : ℚ}
    {dist : DistributionType} (hb : mn ≤ d ∧ d ≤ mx) {p : FloatParam}
    (hp : p ∈ reg) (hname : p.name = nm) :
    newFloatParam reg nm d mn mx dist =
      Except.error (PyError.DuplicateParameterError nm) := by
  unfold newFloatParam
  rw [if_pos hb, if_pos (List.any_eq_true.mpr ⟨p, hp, by simp [hname]⟩)]

/-- Parameters present before the loop are still present afterwards: the
loop only ever appends to the registry. -/
theorem processSelected_registry_mono {p : FloatParam} :
    ∀ (sel : List (Nat × Exchange)) (db : List Exchange) (reg : Registry),
      p ∈ reg → p ∈ (processSelected sel db reg).registry
  | [], db, reg, hp => hp
  | (j, f) :: rest, db, reg, hp => by
      rw [processSelected]
      cases hnf : newFloatParam reg (paramName f) (getNum f.amount)
          ((1 / 2) * getNum f.amount) ((3 / 2) * getNum f.amount)
          DistributionType.TRIANGLE with
      | error er => exact hp
      | ok pr =>
          simp only []
          obtain ⟨hpr1, hpr2, _, _⟩ := newFloatParam_ok hnf
          refine processSelected_registry_mono rest _ pr.2 ?_
          rw [hpr2]
          exact List.mem_append_left _ hp

/-- Every parameter present after the loop either was present before or was
created by the loop body: TRIANGLE distribution, bounds half and one-and-a-
half times its default, and valid bounds. -/
theorem processSelected_registry_new {p : FloatParam} :
    ∀ (sel : List (Nat × Exchange)) (db : List Exchange) (reg : Registry),
      p ∈ (processSelected sel db reg).registry →
      p ∈ reg ∨ (p.distrib = DistributionType.TRIANGLE ∧
        p.min = (1 / 2) * p.default ∧ p.max = (3 / 2) * p.default ∧
        p.min ≤ p.default ∧ p.default ≤ p.max)
  | [], db, reg, hp => Or.inl hp
  | (j, f) :: rest, db, reg, hp => by
      rw [processSelected] at hp
      cases hnf : newFloatParam reg (paramName f) (getNum f.amount)
          ((1 / 2) * getNum f.amount) ((3 / 2) * getNum f.amount)
          DistributionType.TRIANGLE with
      | error er =>
          rw [hnf] at hp
          exact Or.inl hp
      | ok pr =>
          rw [hnf] at hp
          simp only [] at hp
          obtain ⟨hpr1, hpr2, hb, _⟩ := newFloatParam_ok hnf
          rcases processSelected_registry_new rest _ pr.2 hp with h | h
          · rw [hpr2] at h
            rcases List.mem_append.mp h with h | h
            · exact Or.inl h
            · refine Or.inr ?_
              rw [List.mem_singleton.mp h, hpr1]
              exact ⟨rfl, rfl, rfl, hb.1, hb.2⟩
          · exact Or.inr h

/-- The loop never touches a database position it did not select. -/
theorem processSelected_db_stable {i : Nat} :
    ∀ (sel : List (Nat × Exchange)) (db : List Exchange) (reg : Registry),
      i ∉ sel.map Prod.fst →
      ((processSelected sel db reg).db)[i]? = db[i]?
  | [], db, reg, _ => rfl
  | (j, f) :: rest, db, reg, hni => by
      have hji : j ≠ i := by
        intro hj
        exact hni (by simp [hj])
      have hrest : i ∉ rest.map Prod.fst := by
        intro hmem
        exact hni (by simp [hmem])
      rw [processSelected]
      cases hnf : newFloatParam reg (paramName f) (getNum f.amount)
          ((1 / 2) * getNum f.amount) ((3 / 2) * getNum f.amount)
          DistributionType.TRIANGLE with
      | error er => rfl
      | ok pr =>
          simp only []
          rw [processSelected_db_stable rest _ pr.2 hrest]
          exact List.getElem?_set_ne hji

/-- Central description of a successful loop run: every selected exchange
ends with its parameter registered (exact name, default, bounds and
distribution of lines 64-70) and its database slot rewritten to reference
that parameter. -/
theorem processSelected_param_spec :
    ∀ (sel : List (Nat × Exchange)) (db : List Exchange) (reg : Registry),
      (processSelected sel db reg).err = none →
      (sel.map Prod.fst).Nodup →
      ∀ i e, (i, e) ∈ sel → i < db.length →
        mkParamOf e ∈ (processSelected sel db reg).registry ∧
        ((processSelected sel db reg).db)[i]? =
          some (rewriteExc e (paramName e))
  | [], db, reg, _, _, i, e, hmem, _ => absurd hmem (List.not_mem_nil _)
  | (j, f) :: rest, db, reg, herr, hnd, i, e, hmem, hlt => by
      rw [processSelected] at herr ⊢
      cases hnf : newFloatParam reg (paramName f) (getNum f.amount)
          ((1 / 2) * getNum f.amount) ((3 / 2) * getNum f.amount)
          DistributionType.TRIANGLE with
      | error er =>
          rw [hnf] at herr
          cases herr
      | ok pr =>
          rw [hnf] at herr
          simp only [] at herr ⊢
          obtain ⟨hpr1, hpr2, _, _⟩ := newFloatParam_ok hnf
          have hjrest : j ∉ rest.map Prod.fst := by
            have := hnd
            simp only [List.map_cons, List.nodup_cons] at this
            exact this.1
          have hndrest : (rest.map Prod.fst).Nodup := by
            have := hnd
            simp only [List.map_cons, List.nodup_cons] at this
            exact this.2
          rcases List.mem_cons.mp hmem with hhead | hrest
          · have hij : i = j ∧ e = f := by
              cases hhead
              exact ⟨rfl, rfl⟩
            obtain ⟨hi, he⟩ := hij
            subst hi
            subst he
            constructor
            · refine processSelected_registry_mono rest _ pr.2 ?_
              rw [hpr2, hpr1]
              exact List.mem_append_right _ (List.mem_singleton.mpr rfl)
            · rw [processSelected_db_stable rest _ pr.2 hjrest]
              have hname : pr.1.name = paramName e := by
                rw [hpr1]
              rw [hname]
              exact List.getElem?_set_self hlt
          · have hlt2 : i < (db.set j (rewriteExc f pr.1.name)).length := by
              rw [List.length_set]
              exact hlt
            exact processSelected_param_spec rest _ pr.2 herr hndrest i e hrest hlt2

/-- Splitting the loop: processing a concatenation first processes the
prefix; if that fails the suffix is never reached, otherwise the suffix is
processed from the intermediate state. -/
theorem processSelected_append :
    ∀ (l1 l2 : List (Nat × Exchange)) (db : List Exchange) (reg : Registry),
      processSelected (l1 ++ l2) db reg =
        if (processSelected l1 db reg).err = none then
          processSelected l2 (processSelected l1 db reg).db
            (processSelected l1 db reg).registry
        else processSelected l1 db reg
  | [], l2, db, reg => by simp [processSelected]
  | (j, f) :: rest, l2, db, reg => by
      rw [List.cons_append, processSelected, processSelected]
      cases hnf : newFloatParam reg (paramName f) (getNum f.amount)
          ((1 / 2) * getNum f.amount) ((3 / 2) * getNum f.amount)
          DistributionType.TRIANGLE with
      | error er => simp
      | ok pr =>
          simp only []
          exact processSelected_append rest l2 _ pr.2

/-- Unfolding: a failed sampling call fails the whole operation with
`ValueError`, mutating nothing. -/
theorem add_exchange_uncertainty_none {db : List Exchange} {percent : ℚ}
    {g : RandGen} {reg : Registry} (h : selectedSample db percent g = none) :
    add_exchange_uncertainty db percent g reg =
      ⟨db, reg, some PyError.ValueError⟩ := by
  unfold add_exchange_uncertainty
  rw [h]

/-- Unfolding: a successful sampling call hands the selection to the
loop. -/
theorem add_exchange_uncertainty_some {db : List Exchange} {percent : ℚ}
    {g : RandGen} {reg : Registry} {sel : List (Nat × Exchange)}
    (h : selectedSample db percent g = some sel) :
    add_exchange_uncertainty db percent g reg = processSelected sel db reg := by
  unfold add_exchange_uncertainty
  rw [h]

/-- Stable insertion only rearranges: the result is a permutation of the
element put in front of the old list. -/
theorem insertDesc_perm (x : String × ℚ) :
    ∀ l : List (String × ℚ), List.Perm (insertDesc x l) (x :: l)
  | [] => List.Perm.refl _
  | y :: ys => by
      rw [insertDesc]
      by_cases h : y.2 < x.2
      · rw [if_pos h]
      · rw [if_neg h]
        exact ((insertDesc_perm x ys).cons y).trans (List.Perm.swap x y ys)

/-- The insertion-sort fold only rearranges its input. -/
theorem insertFold_perm :
    ∀ (l acc : List (String × ℚ)),
      List.Perm (l.foldl (fun acc x => insertDesc x acc) acc) (acc ++ l)
  | [], acc => by simp
  | x :: xs, acc => by
      simp only [List.foldl_cons]
      refine (insertFold_perm xs (insertDesc x acc)).trans ?_
      refine ((insertDesc_perm x acc).append_right xs).trans ?_
      exact List.perm_middle.symm

/-- The sort of line 82 permutes the sobol items. -/
theorem pySortedDescS1_perm (l : List (String × ℚ)) :
    List.Perm (pySortedDescS1 l) l := by
  simpa using insertFold_perm l []

/-- Stable insertion preserves sortedness by weakly descending S1. -/
theorem insertDesc_sorted {x : String × ℚ} :
    ∀ {l : List (String × ℚ)},
      List.Pairwise (fun a b => b.2 ≤ a.2) l →
      List.Pairwise (fun a b => b.2 ≤ a.2) (insertDesc x l)
  | [], _ => by simp [insertDesc]
  | y :: ys, h => by
      rw [insertDesc]
      rcases List.pairwise_cons.mp h with ⟨hy, hys⟩
      by_cases hlt : y.2 < x.2
      · rw [if_pos hlt]
        refine List.pairwise_cons.mpr ⟨?_, h⟩
        intro z hz
        rcases List.mem_cons.mp hz with rfl | hz
        · exact le_of_lt hlt
        · exact le_trans (hy z hz) (le_of_lt hlt)
      · rw [if_neg hlt]
        refine List.pairwise_cons.mpr ⟨?_, insertDesc_sorted hys⟩
        intro z hz
        have hz2 : z ∈ x :: ys := (insertDesc_perm x ys).subset hz
        rcases List.mem_cons.mp hz2 with rfl | hz2
        · exact le_of_not_lt hlt
        · exact hy z hz2

/-- The insertion-sort fold keeps the accumulator sorted by weakly
descending S1. -/
theorem insertFold_sorted :
    ∀ (l acc : List (String × ℚ)),
      List.Pairwise (fun a b => b.2 ≤ a.2) acc →
      List.Pairwise (fun a b => b.2 ≤ a.2)
        (l.foldl (fun acc x => insertDesc x acc) acc)
  | [], _, h => h
  | x :: xs, acc, h => by
      simp only [List.foldl_cons]
      exact insertFold_sorted xs _ (insertDesc_sorted h)

/-- The sort of line 82 yields a list of weakly descending S1. -/
theorem pySortedDescS1_sorted (l : List (String × ℚ)) :
    List.Pairwise (fun a b => b.2 ≤ a.2) (pySortedDescS1 l) :=
  insertFold_sorted l [] (by simp)

/-- C1 (counterexample): over four eligible exchanges at fraction 2/5 the
operation selects one exchange, while the claimed `max(1, round(fraction *
len))` asks for two: the code truncates with `int`, it does not round. -/
theorem claim1_counterexample :
    (selectedSample dbFour (2 / 5) (fun _ => 0)).map List.length = some 1 ∧
    max 1 (round (((eligibleExchs dbFour).length : ℚ) * (2 / 5))).toNat = 2 := by
  constructor
  · decide
  · decide

/-- C1 (amended): a successful run of the selection excludes every
production exchange and selects exactly
`max(1, int(len(eligible) * fraction))` exchanges, `int` truncating toward
zero; at fraction 2/5 this is 4 of 10 eligible and 1 of 1 eligible, but it
is the floor, not the rounding, of `fraction * len` in general. -/
theorem claim1_selection_size (db : List Exchange) (percent : ℚ) (g : RandGen)
    (sel : List (Nat × Exchange))
    (hsel : selectedSample db percent g = some sel) :
    (∀ i e, (i, e) ∈ sel → e.exType ≠ "production") ∧
    sel.length =
      max 1 (pyInt (((eligibleExchs db).length : ℚ) * percent)).toNat := by
  constructor
  · intro i e hmem
    exact (selectedSample_mem hsel hmem).2
  · have h := selectedSample_length hsel
    rw [nSelect] at h
    exact h

/-- Witness for C1 (amended): ten eligible exchanges at fraction 2/5 give a
four-element production-free selection. -/
theorem claim1_selection_size_witness :
    (∀ i e, (i, e) ∈ selTen → e.exType ≠ "production") ∧
    selTen.length =
      max 1 (pyInt (((eligibleExchs dbTen).length : ℚ) * (2 / 5))).toNat :=
  claim1_selection_size dbTen (2 / 5) (fun _ => 0) selTen (by decide)

/-- C2 (counterexample): same database, same explicit inputs, two states of
the hidden global random module: the selected sets differ.  The operation
has no seed input; it reads the unseeded global `random` state. -/
theorem claim2_counterexample :
    selectedSample dbFour (2 / 5) (fun _ => 0) ≠
      selectedSample dbFour (2 / 5) (fun _ => 1) := by
  decide

/-- C2 (amended): the run is reproducible exactly when the hidden global
generator state is fixed: two generator states agreeing on the draws the
sampling consumes produce identical results.  Reproducibility therefore
requires seeding the global `random` module externally, not an explicit seed
input of the operation, which has none. -/
theorem claim2_reproducible_for_fixed_hidden_state (db : List Exchange)
    (percent : ℚ) (reg : Registry) (g1 g2 : RandGen)
    (h : ∀ j, j < nSelect db percent → g1 j = g2 j) :
    add_exchange_uncertainty db percent g1 reg =
      add_exchange_uncertainty db percent g2 reg := by
  have hsel : selectedSample db percent g1 = selectedSample db percent g2 := by
    unfold selectedSample randomSample
    rw [sampleAux_congr g1 g2 (nSelect db percent) 0 (eligibleExchs db)
      (fun j h1 h2 => h j (by omega))]
  unfold add_exchange_uncertainty
  rw [hsel]

/-- Witness for C2 (amended): two syntactically different generator states
agreeing on the consumed draws yield the same run. -/
theorem claim2_reproducible_witness :
    add_exchange_uncertainty dbFour (2 / 5) (fun _ => 0) [] =
      add_exchange_uncertainty dbFour (2 / 5)
        (fun n => if n = 0 then 0 else 7) [] :=
  claim2_reproducible_for_fixed_hidden_state dbFour (2 / 5) []
    (fun _ => 0) (fun n => if n = 0 then 0 else 7)
    (fun j hj => by
      have hn : nSelect dbFour (2 / 5) = 1 := by decide
      rw [hn] at hj
      have hj0 : j = 0 := Nat.lt_one_iff.mp hj
      simp [hj0])

/-- C3: starting from a registry whose parameters satisfy
`low ≤ default ≤ high`, every parameter present after the operation still
satisfies it — whatever the sign of any amount — and any insertion whose
inputs violate the invariant fails with `ConfigurationError` instead of
creating the parameter. -/
theorem claim3_param_bounds_invariant (db : List Exchange) (percent : ℚ)
    (g : RandGen) (reg : Registry)
    (hreg : ∀ p ∈ reg, p.min ≤ p.default ∧ p.default ≤ p.max) :
    (∀ p ∈ (add_exchange_uncertainty db percent g reg).registry,
        p.min ≤ p.default ∧ p.default ≤ p.max) ∧
    (∀ (r : Registry) (nm : String) (d mn mx : ℚ) (dist : DistributionType),
        ¬(mn ≤ d ∧ d ≤ mx) →
        newFloatParam r nm d mn mx dist =
          Except.error (PyError.ConfigurationError nm)) := by
  constructor
  · intro p hp
    cases hs : selectedSample db percent g with
    | none =>
        rw [add_exchange_uncertainty_none hs] at hp
        exact hreg p hp
    | some sel =>
        rw [add_exchange_uncertainty_some hs] at hp
        rcases processSelected_registry_new sel db reg hp with h | h
        · exact hreg p h
        · exact ⟨h.2.2.2.1, h.2.2.2.2⟩
  · intro r nm d mn mx dist hb
    exact newFloatParam_config hb

/-- Witness for C3 at a concrete database and the empty registry. -/
theorem claim3_param_bounds_witness :
    (∀ p ∈ (add_exchange_uncertainty dbTwo 1 (fun _ => 0) []).registry,
        p.min ≤ p.default ∧ p.default ≤ p.max) ∧
    (∀ (r : Registry) (nm : String) (d mn mx : ℚ) (dist : DistributionType),
        ¬(mn ≤ d ∧ d ≤ mx) →
        newFloatParam r nm d mn mx dist =
          Except.error (PyError.ConfigurationError nm)) :=
  claim3_param_bounds_invariant dbTwo 1 (fun _ => 0) []
    (fun p hp => absurd hp (List.not_mem_nil p))

/-- C4: in a successful run, each selected exchange of amount `v` gets a
parameter named `p_` plus its input code, with default `v`, bounds
`(1 - spread) * v` and `(1 + spread) * v` for the hardcoded spread 1/2, the
TRIANGLE distribution, and its database slot rewritten to a symbolic
reference to that parameter. -/
theorem claim4_parameter_shape (db : List Exchange) (percent : ℚ)
    (g : RandGen) (reg : Registry) (sel : List (Nat × Exchange))
    (hsel : selectedSample db percent g = some sel)
    (hok : (add_exchange_uncertainty db percent g reg).err = none)
    (i : Nat) (e : Exchange) (hmem : (i, e) ∈ sel) :
    ∃ p : FloatParam,
      p ∈ (add_exchange_uncertainty db percent g reg).registry ∧
      p.name = "p_" ++ e.inputCode ∧
      p.default = getNum e.amount ∧
      p.min = (1 - 1 / 2) * getNum e.amount ∧
      p.max = (1 + 1 / 2) * getNum e.amount ∧
      p.distrib = DistributionType.TRIANGLE ∧
      ((add_exchange_uncertainty db percent g reg).db)[i]? =
        some (rewriteExc e p.name) := by
  rw [add_exchange_uncertainty_some hsel] at hok ⊢
  obtain ⟨hlt, _⟩ := selectedSample_mem hsel hmem
  obtain ⟨hregmem, hdb⟩ := processSelected_param_spec sel db reg hok
    (selectedSample_fst_nodup hsel) i e hmem hlt
  refine ⟨mkParamOf e, hregmem, rfl, rfl, ?_, ?_, rfl, hdb⟩
  · show (1 / 2) * getNum e.amount = (1 - 1 / 2) * getNum e.amount
    norm_num
  · show (3 / 2) * getNum e.amount = (1 + 1 / 2) * getNum e.amount
    norm_num

/-- Witness for C4: a single exchange of amount 8 yields the parameter
`p_w` with default 8, bounds 4 and 12, TRIANGLE distribution, and a
rewritten amount slot. -/
theorem claim4_parameter_shape_witness :
    ∃ p : FloatParam,
      p ∈ (add_exchange_uncertainty dbEight 1 (fun _ => 0) []).registry ∧
      p.name = "p_" ++ "w" ∧
      p.default = getNum (Amount.num 8) ∧
      p.min = (1 - 1 / 2) * getNum (Amount.num 8) ∧
      p.max = (1 + 1 / 2) * getNum (Amount.num 8) ∧
      p.distrib = DistributionType.TRIANGLE ∧
      ((add_exchange_uncertainty dbEight 1 (fun _ => 0) []).db)[0]? =
        some (rewriteExc ⟨"w", Amount.num 8, "technosphere"⟩ p.name) :=
  claim4_parameter_shape dbEight 1 (fun _ => 0) []
    [(0, ⟨"w", Amount.num 8, "technosphere"⟩)] (by decide) (by decide)
    0 ⟨"w", Amount.num 8, "technosphere"⟩ (by decide)

/-- C5: creating a parameter under a name already present in the registry
fails with `DuplicateParameterError` naming it (valid bounds assumed), and
the loop never removes or alters a registry entry: existing parameters are
never silently overwritten. -/
theorem claim5_duplicate_name_aborts (reg : Registry) (nm : String)
    (d mn mx : ℚ) (dist : DistributionType) (hb : mn ≤ d ∧ d ≤ mx)
    (p : FloatParam) (hp : p ∈ reg) (hname : p.name = nm) :
    newFloatParam reg nm d mn mx dist =
      Except.error (PyError.DuplicateParameterError nm) ∧
    ∀ (sel : List (Nat × Exchange)) (db : List Exchange) (q : FloatParam),
      q ∈ reg → q ∈ (processSelected sel db reg).registry := by
  refine ⟨newFloatParam_dup hb hp hname, ?_⟩
  intro sel db q hq
  exact processSelected_registry_mono sel db reg hq

/-- Witness for C5 at a one-entry registry and the colliding name. -/
theorem claim5_duplicate_name_witness :
    newFloatParam [⟨"p_a", 1, 0, 2, DistributionType.TRIANGLE⟩] "p_a" 1 0 2
        DistributionType.TRIANGLE =
      Except.error (PyError.DuplicateParameterError "p_a") ∧
    ∀ (sel : List (Nat × Exchange)) (db : List Exchange) (q : FloatParam),
      q ∈ [(⟨"p_a", 1, 0, 2, DistributionType.TRIANGLE⟩ : FloatParam)] →
      q ∈ (processSelected sel db
        [⟨"p_a", 1, 0, 2, DistributionType.TRIANGLE⟩]).registry :=
  claim5_duplicate_name_aborts [⟨"p_a", 1, 0, 2, DistributionType.TRIANGLE⟩]
    "p_a" 1 0 2 DistributionType.TRIANGLE (by norm_num)
    ⟨"p_a", 1, 0, 2, DistributionType.TRIANGLE⟩ (by simp) rfl

/-- C6 (counterexample): an exchange of amount 0 is selected and the run
succeeds silently, creating the degenerate parameter with
`low = default = high = 0` and rewriting the exchange — nothing is skipped
and no configuration is consulted. -/
theorem claim6_counterexample :
    add_exchange_uncertainty dbZero 1 (fun _ => 0) [] =
      ⟨[⟨"z", Amount.paramRef "p_z", "technosphere"⟩],
       [⟨"p_z", 0, 0, 0, DistributionType.TRIANGLE⟩], none⟩ := by
  decide

/-- C6 (amended): a selected exchange of amount 0 is parameterized like any
other: the run creates, without error or any configuration option, the
zero-width parameter with `low = default = high = 0` and rewrites the
exchange's amount slot. -/
theorem claim6_zero_amount_degenerate (db : List Exchange) (percent : ℚ)
    (g : RandGen) (reg : Registry) (sel : List (Nat × Exchange))
    (hsel : selectedSample db percent g = some sel)
    (hok : (add_exchange_uncertainty db percent g reg).err = none)
    (i : Nat) (e : Exchange) (hmem : (i, e) ∈ sel)
    (hzero : getNum e.amount = 0) :
    ∃ p : FloatParam,
      p ∈ (add_exchange_uncertainty db percent g reg).registry ∧
      p.name = paramName e ∧ p.default = 0 ∧ p.min = 0 ∧ p.max = 0 ∧
      ((add_exchange_uncertainty db percent g reg).db)[i]? =
        some (rewriteExc e p.name) := by
  rw [add_exchange_uncertainty_some hsel] at hok ⊢
  obtain ⟨hlt, _⟩ := selectedSample_mem hsel hmem
  obtain ⟨hregmem, hdb⟩ := processSelected_param_spec sel db reg hok
    (selectedSample_fst_nodup hsel) i e hmem hlt
  refine ⟨mkParamOf e, hregmem, rfl, ?_, ?_, ?_, hdb⟩
  · exact hzero
  · show (1 / 2) * getNum e.amount = 0
    rw [hzero, mul_zero]
  · show (3 / 2) * getNum e.amount = 0
    rw [hzero, mul_zero]

/-- Witness for C6 (amended) on the zero-amount database. -/
theorem claim6_zero_amount_witness :
    ∃ p : FloatParam,
      p ∈ (add_exchange_uncertainty dbZero 1 (fun _ => 0) []).registry ∧
      p.name = paramName ⟨"z", Amount.num 0, "technosphere"⟩ ∧
      p.default = 0 ∧ p.min = 0 ∧ p.max = 0 ∧
      ((add_exchange_uncertainty dbZero 1 (fun _ => 0) []).db)[0]? =
        some (rewriteExc ⟨"z", Amount.num 0, "technosphere"⟩ p.name) :=
  claim6_zero_amount_degenerate dbZero 1 (fun _ => 0) []
    [(0, ⟨"z", Amount.num 0, "technosphere"⟩)] (by decide) (by decide)
    0 ⟨"z", Amount.num 0, "technosphere"⟩ (by decide) (by decide)

/-- C7 (counterexample): a run whose only explicit inputs are the database
and the fraction produces a parameter with the TRIANGLE distribution and the
bounds `0.5 * v` and `1.5 * v`: spread and distribution family are hardcoded
constants of the operation, not inputs, and no seed input exists. -/
theorem claim7_counterexample :
    add_exchange_uncertainty dbSeven 1 (fun _ => 0) [] =
      ⟨[⟨"s", Amount.paramRef "p_s", "technosphere"⟩],
       [⟨"p_s", 4, 2, 6, DistributionType.TRIANGLE⟩], none⟩ := by
  decide

/-- C7 (amended): the fraction is an explicit input, but every parameter the
operation ever creates — whatever all the explicit inputs are — has the
TRIANGLE distribution and bounds exactly half and one-and-a-half times its
default: spread 0.5 and the distribution family are hardcoded, and the
selection seed is not an input (see the C2 theorems). -/
theorem claim7_hardcoded_spread_distribution (db : List Exchange)
    (percent : ℚ) (g : RandGen) (reg : Registry) (p : FloatParam)
    (hp : p ∈ (add_exchange_uncertainty db percent g reg).registry)
    (hnew : p ∉ reg) :
    p.distrib = DistributionType.TRIANGLE ∧
    p.min = (1 / 2) * p.default ∧ p.max = (3 / 2) * p.default := by
  cases hs : selectedSample db percent g with
  | none =>
      rw [add_exchange_uncertainty_none hs] at hp
      exact absurd hp hnew
  | some sel =>
      rw [add_exchange_uncertainty_some hs] at hp
      rcases processSelected_registry_new sel db reg hp with h | h
      · exact absurd h hnew
      · exact ⟨h.1, h.2.1, h.2.2.1⟩

/-- Witness for C7 (amended): the parameter created on `dbSeven` indeed
carries the hardcoded distribution and spread. -/
theorem claim7_hardcoded_witness :
    (⟨"p_s", 4, 2, 6, DistributionType.TRIANGLE⟩ : FloatParam).distrib =
        DistributionType.TRIANGLE ∧
    (⟨"p_s", 4, 2, 6, DistributionType.TRIANGLE⟩ : FloatParam).min =
        (1 / 2) * (⟨"p_s", 4, 2, 6, DistributionType.TRIANGLE⟩ : FloatParam).default ∧
    (⟨"p_s", 4, 2, 6, DistributionType.TRIANGLE⟩ : FloatParam).max =
        (3 / 2) * (⟨"p_s", 4, 2, 6, DistributionType.TRIANGLE⟩ : FloatParam).default :=
  claim7_hardcoded_spread_distribution dbSeven 1 (fun _ => 0) []
    ⟨"p_s", 4, 2, 6, DistributionType.TRIANGLE⟩ (by decide) (by decide)

/-- C8 (counterexample): two parameters with equal S1, inserted in the order
`b` then `a`: the reporting keeps the insertion order `b, a`, while the
spec's ordering (ties broken by name) lists `a, b` — ties are not broken by
parameter name. -/
theorem claim8_counterexample :
    print_top_parameters [⟨[("b", 1), ("a", 1)]⟩] = [[("b", 1), ("a", 1)]] ∧
    specSortSobols [("b", 1), ("a", 1)] = [("a", 1), ("b", 1)] := by
  constructor
  · decide
  · decide

/-- C8 (amended): each reported row is a permutation of the corresponding
model's sobol items listed by weakly descending S1; the sort is stable, so
ties keep the mapping's insertion order — deterministic for a fixed mapping,
but not broken by parameter name. -/
theorem claim8_sorted_desc_S1 (simplified : List SimplifiedModel) (i : Nat)
    (row : List (String × ℚ))
    (hrow : (print_top_parameters simplified)[i]? = some row) :
    (∃ sm, simplified[i]? = some sm ∧ List.Perm row sm.sobols) ∧
    List.Pairwise (fun a b => b.2 ≤ a.2) row := by
  unfold print_top_parameters at hrow
  rw [List.getElem?_map] at hrow
  cases hs : simplified[i]? with
  | none =>
      rw [hs] at hrow
      cases hrow
  | some sm =>
      rw [hs] at hrow
      have hr : pySortedDescS1 sm.sobols = row := by
        simpa using hrow
      rw [← hr]
      exact ⟨⟨sm, rfl, pySortedDescS1_perm _⟩, pySortedDescS1_sorted _⟩

/-- Witness for C8 (amended) on a two-parameter sobol mapping. -/
theorem claim8_sorted_desc_S1_witness :
    (∃ sm, ([⟨[("x", 1 / 2), ("y", 3 / 4)]⟩] :
        List SimplifiedModel)[0]? = some sm ∧
      List.Perm [("y", (3 : ℚ) / 4), ("x", 1 / 2)] sm.sobols) ∧
    List.Pairwise (fun a b => b.2 ≤ a.2)
      [("y", (3 : ℚ) / 4), ("x", 1 / 2)] :=
  claim8_sorted_desc_S1 [⟨[("x", 1 / 2), ("y", 3 / 4)]⟩] 0
    [("y", 3 / 4), ("x", 1 / 2)] (by decide)

/-- C9: with no eligible exchange the operation does not silently do
nothing: the `max(1, ...)` floor asks `random.sample` for one element of an
empty population, which raises; the database and registry are untouched. -/
theorem claim9_empty_eligible_errors (db : List Exchange) (percent : ℚ)
    (g : RandGen) (reg : Registry) (h : eligibleExchs db = []) :
    add_exchange_uncertainty db percent g reg =
      ⟨db, reg, some PyError.ValueError⟩ := by
  refine add_exchange_uncertainty_none ?_
  unfold selectedSample randomSample
  rw [h]
  have h1 : 1 ≤ nSelect db percent := le_max_left 1 _
  have h2 : ¬ (nSelect db percent ≤ ([] : List (Nat × Exchange)).length) := by
    simp only [List.length_nil]
    omega
  rw [if_neg h2]

/-- Witness for C9 on a database holding only a production exchange. -/
theorem claim9_empty_eligible_witness :
    add_exchange_uncertainty dbProd (2 / 5) (fun _ => 0) [] =
      ⟨dbProd, [], some PyError.ValueError⟩ :=
  claim9_empty_eligible_errors dbProd (2 / 5) (fun _ => 0) [] (by decide)

/-- C10: the loop is not atomic.  If the prefix of the selection processes
without error and parameter creation fails on the next exchange, the run
stops with exactly the prefix's mutations: the database and registry are
those after the prefix, the error is reported, and every exchange of the
prefix keeps its already-rewritten amount slot — no rollback occurs. -/
theorem claim10_no_rollback (pre rest : List (Nat × Exchange)) (i : Nat)
    (e : Exchange) (db : List Exchange) (reg : Registry) (er : PyError)
    (hpre : (processSelected pre db reg).err = none)
    (hfail : newFloatParam (processSelected pre db reg).registry (paramName e)
        (getNum e.amount) ((1 / 2) * getNum e.amount)
        ((3 / 2) * getNum e.amount) DistributionType.TRIANGLE =
      Except.error er) :
    processSelected (pre ++ (i, e) :: rest) db reg =
      ⟨(processSelected pre db reg).db,
       (processSelected pre db reg).registry, some er⟩ ∧
    ((pre.map Prod.fst).Nodup →
      ∀ j f, (j, f) ∈ pre → j < db.length →
        ((processSelected (pre ++ (i, e) :: rest) db reg).db)[j]? =
          some (rewriteExc f (paramName f))) := by
  have hmain : processSelected (pre ++ (i, e) :: rest) db reg =
      ⟨(processSelected pre db reg).db,
       (processSelected pre db reg).registry, some er⟩ := by
    rw [processSelected_append, if_pos hpre, processSelected, hfail]
  refine ⟨hmain, ?_⟩
  intro hnd j f hmem hlt
  rw [hmain]
  exact (processSelected_param_spec pre db reg hpre hnd j f hmem hlt).2

/-- Witness for C10: the first of two exchanges sharing input code `a` is
processed and rewritten; the second collides, and the final state keeps the
first rewrite together with the `DuplicateParameterError`. -/
theorem claim10_no_rollback_witness :
    processSelected ([(0, exA)] ++ (1, exB) :: []) [exA, exB] [] =
      ⟨(processSelected [(0, exA)] [exA, exB] []).db,
       (processSelected [(0, exA)] [exA, exB] []).registry,
       some (PyError.DuplicateParameterError "p_a")⟩ ∧
    (([(0, exA)].map Prod.fst).Nodup →
      ∀ j f, (j, f) ∈ [(0, exA)] → j < ([exA, exB] : List Exchange).length →
        ((processSelected ([(0, exA)] ++ (1, exB) :: []) [exA, exB] []).db)[j]? =
          some (rewriteExc f (paramName f))) :=
  claim10_no_rollback [(0, exA)] [] 1 exB [exA, exB] []
    (PyError.DuplicateParameterError "p_a") (by decide) (by decide)

end GsaDemo
